import Mathlib

/-!
Verification of the face identity index and its file-backed store
(`facial_recognition.py`, `watch/facial_recognition.py`,
`watch/face_database.py`).

The filesystem is modelled as an association list from structured file
references (`known/<folder>/<basename>` or `unknown/<basename>`) to abstract
image contents.  The embedding extractor is an external collaborator and is
modelled as a parameter: a function from contents to the list of detected
face encodings, together with the crop-to-first-region transformation that
`save` applies before writing.  Directory traversal (`os.listdir`) is
modelled as traversal of the file list; no claim below depends on the
enumeration order of the walk.  Euclidean distances between embeddings are
taken as rationals, mirroring real-number semantics of the distance values
that `face_recognition.face_distance` hands to the matcher.
-/

namespace FacialRec

/-! ### Python string primitives (ASCII fragment used by the program) -/

/-- Python `str.lower()`: characterwise ASCII lowercasing. -/
def pyLower (s : String) : String := String.mk (s.data.map Char.toLower)

/-- Auxiliary for `pyStrip`: drop whitespace from both ends of a char list. -/
def pyStripList (l : List Char) : List Char :=
  ((l.dropWhile Char.isWhitespace).reverse.dropWhile Char.isWhitespace).reverse

/-- Python `str.strip()`: remove leading and trailing whitespace. -/
def pyStrip (s : String) : String := String.mk (pyStripList s.data)

/-- Auxiliary for `pyTitle`: the flag records whether the previous character
was a cased (alphabetic) one. -/
def pyTitleList : Bool → List Char → List Char
  | _, [] => []
  | prev, c :: cs =>
    if c.isAlpha then (if prev then c.toLower else c.toUpper) :: pyTitleList true cs
    else c :: pyTitleList false cs

/-- Python `str.title()`: first letter of every alphabetic run uppercased,
the rest lowercased. -/
def pyTitle (s : String) : String := String.mk (pyTitleList false s.data)

/-- The `name.lower().strip()` normalisation applied by `save_face_image`,
`label_image`, `get_all_images` and `FaceDatabase`. -/
def effName (s : String) : String := pyStrip (pyLower s)

/-- Python `str(x)` on an optional string: `None` prints as `"None"`.  Used to
model the f-string `f"{name}_{random.randint(0, 1000000)}.jpg"` when `name`
may be `None`. -/
def optStr : Option String → String
  | none => "None"
  | some s => s

/-- Python `s.split(sep)[0]` for a one-character separator: the prefix of `s`
before the first occurrence of `sep` (all of `s` when `sep` is absent). -/
def pyHeadSplit (sep : Char) (s : String) : String :=
  String.mk (s.data.takeWhile (fun c => c != sep))

/-- Python `os.path.basename`: the part of the path after the last `/`. -/
def pyBasename (s : String) : String :=
  String.mk ((s.data.reverse.takeWhile (fun c => c != '/')).reverse)

/-- Python `s.endswith(suf)`. -/
def strEndsWith (s suf : String) : Bool := suf.data.isSuffixOf s.data

/-- The image-extension filter used by `_load_known_faces` and
`get_all_images`: `.jpg`, `.png`, `.jpeg`, `.webp`. -/
def isImageFile (basename : String) : Bool :=
  strEndsWith basename ".jpg" || strEndsWith basename ".png" ||
  strEndsWith basename ".jpeg" || strEndsWith basename ".webp"

/-! ### Name derivation from filenames -/

/-- `FacialRecognition._get_name_from_filename`
(watch/facial_recognition.py lines 234-238):
`filename.split(".")[0].split("_")[0]`, title-cased unless it is exactly
`"unknown"`.  Callers pass the basename of the file. -/
def get_name_from_filename (filename : String) : String :=
  let name := pyHeadSplit '_' (pyHeadSplit '.' filename)
  if name = "unknown" then name else pyTitle name

/-- `FaceDatabase.get_name_from_filename` (watch/face_database.py lines
96-111): same derivation after `os.path.basename`. -/
def fd_get_name_from_filename (filename : String) : String :=
  let basename := pyBasename filename
  let name := pyHeadSplit '_' (pyHeadSplit '.' basename)
  if name = "unknown" then name else pyTitle name

/-! ### The matcher -/

/-- Python `round()` on a rational: round half to even (banker's rounding),
the rounding mode of Python 3's builtin `round`. -/
def pyRound (q : ℚ) : ℤ :=
  if q - (⌊q⌋ : ℚ) < 1/2 then ⌊q⌋
  else if 1/2 < q - (⌊q⌋ : ℚ) then ⌊q⌋ + 1
  else if ⌊q⌋ % 2 = 0 then ⌊q⌋ else ⌊q⌋ + 1

/-- `FacialRecognition._distance_to_confidence` (watch/facial_recognition.py
lines 60-67) and `distance_to_confidence` (facial_recognition.py lines
90-97): clamp the distance to `max_distance` (default 1.0 at every call
site), map linearly to a percentage and round. -/
def distance_to_confidence (distance max_distance : ℚ) : ℤ :=
  let d := min distance max_distance
  let confidence := 1 - d / max_distance
  pyRound (confidence * 100)

/-- Auxiliary for `faceArgmin`: fold tracking the index and value of the
current minimum; strict `<` keeps the first occurrence on ties. -/
def argminFrom (best : ℕ × ℚ) (i : ℕ) : List ℚ → ℕ × ℚ
  | [] => best
  | d :: ds => if d < best.2 then argminFrom (i, d) (i+1) ds else argminFrom best (i+1) ds

/-- `face_distances.argmin()` guarded by the `len(face_distances) > 0` check:
numpy's argmin (first index of the minimum), with the `-1` sentinel the code
assigns when there are no known faces. -/
def faceArgmin : List ℚ → ℤ
  | [] => -1
  | d :: ds => ((argminFrom (0, d) 1 ds).1 : ℤ)

/-- `face_recognition.compare_faces`: one boolean per known face,
`distance <= tolerance`. -/
def compare_faces (face_distances : List ℚ) (tolerance : ℚ) : List Bool :=
  face_distances.map (fun d => decide (d ≤ tolerance))

/-- Per-face verdict of `recognize_faces_in_image` in facial_recognition.py
(lines 111-136), as a function of the known names and the distances of the
probe to each known encoding.  Note the `best_match_index > 0` guard and the
strict `match_threshold` comparison. -/
def cli_recognize_face (known_face_names : List String) (face_distances : List ℚ)
    (tolerance match_threshold : ℚ) : String :=
  let matchFlags := compare_faces face_distances tolerance
  let best : ℤ := faceArgmin face_distances
  if best > 0 then
    if matchFlags.getD best.toNat false then
      if face_distances.getD best.toNat 0 < match_threshold then
        known_face_names.getD best.toNat "unknown"
      else "unknown"
    else "unknown"
  else "unknown"

/-- Per-face verdict and confidence of
`FacialRecognition.recognize_faces_in_image` (watch/facial_recognition.py
lines 110-147): `best_match_index >= 0` guard, no match threshold; the
matched branch reports `_distance_to_confidence` of the best distance, the
unmatched branch reports confidence 0. -/
def watch_recognize_face (known_face_names : List String) (face_distances : List ℚ)
    (tolerance : ℚ) : String × ℤ :=
  let matchFlags := compare_faces face_distances tolerance
  let best : ℤ := faceArgmin face_distances
  if best ≥ 0 then
    if matchFlags.getD best.toNat false then
      (known_face_names.getD best.toNat "unknown",
       distance_to_confidence (face_distances.getD best.toNat 0) 1)
    else ("unknown", 0)
  else ("unknown", 0)

/-! ### The store -/

/-- Abstract image contents. -/
abbrev Content := Nat

/-- Abstract face encodings. -/
abbrev Emb := Nat

/-- A store-root-relative path: `known/<folder>/<basename>` or
`unknown/<basename>`. -/
inductive FileRef
  | known (folder : String) (basename : String)
  | unk (basename : String)
  deriving DecidableEq, Repr

/-- The path string of a reference, as produced by `os.path.join`. -/
def FileRef.path : FileRef → String
  | FileRef.known folder basename => "known/" ++ folder ++ "/" ++ basename
  | FileRef.unk basename => "unknown/" ++ basename

/-- The basename of a reference. -/
def FileRef.base : FileRef → String
  | FileRef.known _ basename => basename
  | FileRef.unk basename => basename

/-- The on-disk state: an association list of files and their contents. -/
abbrev Store := List (FileRef × Content)

/-- `os.path.exists` for a file reference. -/
def fsExists (fs : Store) (r : FileRef) : Bool := fs.any (fun p => decide (p.1 = r))

/-- Read a file's contents. -/
def fsGet (fs : Store) (r : FileRef) : Option Content :=
  (fs.find? (fun p => decide (p.1 = r))).map (fun p => p.2)

/-- `os.remove` (also the source side of `os.rename`). -/
def fsRemove (fs : Store) (r : FileRef) : Store := fs.eraseP (fun p => decide (p.1 = r))

/-- Writing a file (`cv2.imwrite`, `Image.save`, destination of
`os.rename`): overwrite an existing file at the same path, else create. -/
def fsWrite (r : FileRef) (c : Content) : Store → Store
  | [] => [(r, c)]
  | p :: rest => if p.1 = r then (r, c) :: rest else p :: fsWrite r c rest

/-- Is this file one that `store.listKnown()` reports: under `known/` with an
image extension? -/
def isKnownImage : FileRef → Bool
  | FileRef.known _ basename => isImageFile basename
  | FileRef.unk _ => false

/-- The files `store.listKnown()` walks: every image file under
`known/<dir>/`. -/
def knownImageFiles (fs : Store) : Store := fs.filter (fun p => isKnownImage p.1)

/-! ### The extractor collaborator and the index -/

/-- The external embedding extractor: `encs` lists the encodings of the faces
detected in an image (`face_recognition.face_encodings`, one per detected
region), and `crop` is the crop-to-first-region-with-margin transformation
`_crop_image_to_face(img, locations[0])` composed with the JPEG re-encoding
applied before a save. -/
structure Extractor where
  encs : Content → List Emb
  crop : Content → Content

/-- The in-memory index of `FacialRecognition`: three parallel lists, exactly
as the three `self.known_face_*` attributes. -/
structure Index where
  known_face_encodings : List Emb
  known_face_names : List String
  known_face_filenames : List String
  deriving DecidableEq, Repr

/-- Auxiliary for `load_known_faces`, iterating over the store: for every
image file under `known/<folder>/` in which the extractor detects at least
one face, append the first encoding, `folder.title()` and the basename to
the three lists; zero-face files are skipped (with a warning in the
source). -/
def loadGo (E : Extractor) : Store → Index
  | [] => ⟨[], [], []⟩
  | (FileRef.known folder basename, c) :: rest =>
    if isImageFile basename then
      match E.encs c with
      | [] => loadGo E rest
      | e :: _ =>
        let i := loadGo E rest
        ⟨e :: i.known_face_encodings, pyTitle folder :: i.known_face_names,
         basename :: i.known_face_filenames⟩
    else loadGo E rest
  | (FileRef.unk _, _) :: rest => loadGo E rest

/-- `FacialRecognition._load_known_faces` (watch/facial_recognition.py lines
33-58). -/
def load_known_faces (E : Extractor) (fs : Store) : Index := loadGo E fs

/-- The state of a `FacialRecognition` object together with the filesystem it
works on. -/
structure FacialRecognition where
  fs : Store
  index : Index
  deriving DecidableEq, Repr

/-- `FacialRecognition.__init__`: load the known faces. -/
def frInit (E : Extractor) (fs : Store) : FacialRecognition := ⟨fs, load_known_faces E fs⟩

/-- The failure kinds raised by the operations. -/
inductive Err
  | noFaceFound
  | notFound
  | indexOutOfRange
  deriving DecidableEq, Repr

/-- `FacialRecognition.save_face_image` (watch/facial_recognition.py lines
149-194).  `rid` stands for the `random.randint(0, 1000000)` draw.  The code
raises only when zero faces are detected (the encoding and location lists of
the extractor are empty together); with one or more faces it crops to the
first detected region, writes the file and appends one record to each of the
three index lists. -/
def save_face_image (E : Extractor) (s : FacialRecognition) (img : Content) (name : String)
    (rid : ℕ) : Except Err (FileRef × FacialRecognition) :=
  match E.encs img with
  | [] => Except.error Err.noFaceFound
  | e :: _ =>
    let nm := effName name
    let filename := nm ++ "_" ++ Nat.repr rid ++ ".jpg"
    let ref := if nm = "unknown" then FileRef.unk filename else FileRef.known nm filename
    let fs2 := fsWrite ref (E.crop img) s.fs
    let i := s.index
    Except.ok (ref,
      ⟨fs2, ⟨i.known_face_encodings ++ [e],
             i.known_face_names ++ [pyTitle nm],
             i.known_face_filenames ++ [filename]⟩⟩)

/-- The `name is None or name == "" or name.strip() == "unknown"` test of
`label_image` and `get_all_images`. -/
def unknownishName : Option String → Bool
  | none => true
  | some s => decide (s = "") || decide (pyStrip s = "unknown")

/-- `FacialRecognition.label_image` (watch/facial_recognition.py lines
196-232).  In the unknown branch the Python variable `name` keeps its
original value (possibly `None`), so the new filename is
`f"{name}_{rid}.jpg"` with `str(name)` as the prefix; in the named branch
`name` is rebound to `name.lower().strip()` first.  The move is modelled as
remove-then-write of the same contents, and afterwards the index is fully
rebuilt. -/
def label_image (E : Extractor) (s : FacialRecognition) (face_image_url : FileRef)
    (name : Option String) (rid : ℕ) : Except Err (FileRef × FacialRecognition) :=
  match fsGet s.fs face_image_url with
  | none => Except.error Err.notFound
  | some c =>
    let ref :=
      if unknownishName name then
        FileRef.unk (optStr name ++ "_" ++ Nat.repr rid ++ ".jpg")
      else
        let nm := effName (optStr name)
        FileRef.known nm (nm ++ "_" ++ Nat.repr rid ++ ".jpg")
    let fs2 := fsWrite ref c (fsRemove s.fs face_image_url)
    Except.ok (ref, ⟨fs2, load_known_faces E fs2⟩)

/-- `FacialRecognition.delete_image` (watch/facial_recognition.py lines
277-306): fail when the file is absent; otherwise derive the display name
from the basename and read the bytes before removing, then remove and
rebuild the index. -/
def delete_image (E : Extractor) (s : FacialRecognition) (filename : FileRef) :
    Except Err ((FileRef × String × Content) × FacialRecognition) :=
  match fsGet s.fs filename with
  | none => Except.error Err.notFound
  | some c =>
    let nm := get_name_from_filename filename.base
    let fs2 := fsRemove s.fs filename
    Except.ok ((filename, nm, c), ⟨fs2, load_known_faces E fs2⟩)

/-- `FacialRecognition.get_all_images` (watch/facial_recognition.py lines
240-275): list the image files of the folder selected by the naming rule,
deriving each displayed name from the filename. -/
def get_all_images (s : FacialRecognition) (name : Option String) :
    List (FileRef × String × Content) :=
  if unknownishName name then
    s.fs.filterMap (fun p =>
      match p.1 with
      | FileRef.unk b => if isImageFile b then some (p.1, get_name_from_filename b, p.2) else none
      | FileRef.known _ _ => none)
  else
    let nm := effName (optStr name)
    s.fs.filterMap (fun p =>
      match p.1 with
      | FileRef.known f b =>
        if f = nm ∧ isImageFile b then some (p.1, get_name_from_filename b, p.2) else none
      | FileRef.unk _ => none)

/-- A mutating operation on a `FacialRecognition` service. -/
inductive Op
  | saveOp (img : Content) (name : String) (rid : ℕ)
  | labelOp (url : FileRef) (name : Option String) (rid : ℕ)
  | deleteOp (url : FileRef)

/-- One operation; a raised exception propagates to the caller and leaves the
state unchanged. -/
def step (E : Extractor) (s : FacialRecognition) : Op → FacialRecognition
  | Op.saveOp img name rid =>
    match save_face_image E s img name rid with
    | Except.ok r => r.2
    | Except.error _ => s
  | Op.labelOp url name rid =>
    match label_image E s url name rid with
    | Except.ok r => r.2
    | Except.error _ => s
  | Op.deleteOp url =>
    match delete_image E s url with
    | Except.ok r => r.2
    | Except.error _ => s

/-- A sequence of operations. -/
def run (E : Extractor) (s : FacialRecognition) (ops : List Op) : FacialRecognition :=
  ops.foldl (step E) s

/-! ### The FaceDatabase variant (watch/face_database.py) -/

/-- The state of a `FaceDatabase` object: two parallel lists (no encodings;
the file urls here are full store-relative paths). -/
structure FaceDatabase where
  fs : Store
  known_face_names : List String
  known_face_file_urls : List String

/-- Auxiliary for `FaceDatabase._load_known_faces`: append
`person_dir.title()` and `known/<dir>/<filename>` for every image file; no
extractor is involved, so nothing is skipped. -/
def fdLoadGo : Store → List String × List String
  | [] => ([], [])
  | (FileRef.known folder basename, _) :: rest =>
    if isImageFile basename then
      let p := fdLoadGo rest
      (pyTitle folder :: p.1, ("known/" ++ folder ++ "/" ++ basename) :: p.2)
    else fdLoadGo rest
  | (FileRef.unk _, _) :: rest => fdLoadGo rest

/-- `FaceDatabase._generate_file_name`: `f"{name.lower().strip()}_{rid}.jpg"`. -/
def fd_generate_file_name (name : String) (rid : ℕ) : String :=
  effName name ++ "_" ++ Nat.repr rid ++ ".jpg"

/-- `FaceDatabase.save_face_image` (watch/face_database.py lines 138-167):
never fails; writes the image and appends to both lists. -/
def fd_save_face_image (s : FaceDatabase) (name : String) (img : Content) (rid : ℕ) :
    String × FaceDatabase :=
  let nm := effName name
  let filename := fd_generate_file_name nm rid
  let ref := if nm = "unknown" ∨ nm = "" then FileRef.unk filename
             else FileRef.known (effName nm) filename
  let fs2 := fsWrite ref img s.fs
  (ref.path, ⟨fs2, s.known_face_names ++ [pyTitle nm],
              s.known_face_file_urls ++ [ref.path]⟩)

/-- `FaceDatabase.remove_face_at_index` (watch/face_database.py lines 55-70):
bounds check against the names list, then delete the entry from both
lists. -/
def fd_remove_face_at_index (s : FaceDatabase) (i : ℤ) : Except Err FaceDatabase :=
  if i < 0 ∨ (s.known_face_names.length : ℤ) ≤ i then Except.error Err.indexOutOfRange
  else Except.ok ⟨s.fs, s.known_face_names.eraseIdx i.toNat,
                  s.known_face_file_urls.eraseIdx i.toNat⟩

/-- `FaceDatabase.label_image` (watch/face_database.py lines 169-204). -/
def fd_label_image (s : FaceDatabase) (face_image_url : FileRef) (name : String) (rid : ℕ) :
    Except Err (String × FaceDatabase) :=
  match fsGet s.fs face_image_url with
  | none => Except.error Err.notFound
  | some c =>
    let nm := effName name
    let filename := fd_generate_file_name nm rid
    let ref := if nm = "unknown" ∨ nm = "" then FileRef.unk filename
               else FileRef.known (effName nm) filename
    let fs2 := fsWrite ref c (fsRemove s.fs face_image_url)
    Except.ok (ref.path, ⟨fs2, (fdLoadGo fs2).1, (fdLoadGo fs2).2⟩)

/-- `FaceDatabase.delete_image` (watch/face_database.py lines 226-248). -/
def fd_delete_image (s : FaceDatabase) (face_image_url : FileRef) : Except Err FaceDatabase :=
  match fsGet s.fs face_image_url with
  | none => Except.error Err.notFound
  | some _ =>
    let fs2 := fsRemove s.fs face_image_url
    Except.ok ⟨fs2, (fdLoadGo fs2).1, (fdLoadGo fs2).2⟩

/-- A mutating operation on a `FaceDatabase`. -/
inductive FDOp
  | saveOp (name : String) (img : Content) (rid : ℕ)
  | labelOp (url : FileRef) (name : String) (rid : ℕ)
  | deleteOp (url : FileRef)
  | removeAt (i : ℤ)

/-- One `FaceDatabase` operation; failures leave the state unchanged. -/
def fdStep (s : FaceDatabase) : FDOp → FaceDatabase
  | FDOp.saveOp name img rid => (fd_save_face_image s name img rid).2
  | FDOp.labelOp url name rid =>
    match fd_label_image s url name rid with
    | Except.ok r => r.2
    | Except.error _ => s
  | FDOp.deleteOp url =>
    match fd_delete_image s url with
    | Except.ok r => r
    | Except.error _ => s
  | FDOp.removeAt i =>
    match fd_remove_face_at_index s i with
    | Except.ok r => r
    | Except.error _ => s

/-- `FaceDatabase.__init__`: load both lists from the store. -/
def fdInit (fs : Store) : FaceDatabase := ⟨fs, (fdLoadGo fs).1, (fdLoadGo fs).2⟩

/-- A sequence of `FaceDatabase` operations. -/
def fdRun (s : FaceDatabase) (ops : List FDOp) : FaceDatabase := ops.foldl fdStep s

/-! ### Derived notions used by the statements -/

/-- The known image files in which the extractor detects at least one face:
exactly the files that a rebuild indexes. -/
def facedKnownFiles (E : Extractor) (fs : Store) : Store :=
  (knownImageFiles fs).filter (fun p => !(E.encs p.2).isEmpty)

/-- The three index lists have equal lengths. -/
def indexParallel (i : Index) : Prop :=
  i.known_face_names.length = i.known_face_encodings.length ∧
  i.known_face_filenames.length = i.known_face_encodings.length

/-- Every known folder of the store is invariant under the
title-case-then-lowercase round trip that `recognize_faces_in_image` applies
when it reconstructs a matched file's path from the record's display name.
Folders created by `save`/`label` (always `name.lower().strip()`) satisfy
this. -/
def lowFolders (fs : Store) : Prop :=
  ∀ folder basename c, (FileRef.known folder basename, c) ∈ fs →
    pyLower (pyTitle folder) = folder

/-- The destination reference that `save_face_image` computes from the
normalised name and the random draw. -/
def saveDest (name : String) (rid : ℕ) : FileRef :=
  if effName name = "unknown" then FileRef.unk (effName name ++ "_" ++ Nat.repr rid ++ ".jpg")
  else FileRef.known (effName name) (effName name ++ "_" ++ Nat.repr rid ++ ".jpg")

/-- The destination reference that `label_image` computes from its name
argument and the random draw. -/
def labelDest (name : Option String) (rid : ℕ) : FileRef :=
  if unknownishName name then
    FileRef.unk (optStr name ++ "_" ++ Nat.repr rid ++ ".jpg")
  else
    FileRef.known (effName (optStr name))
      (effName (optStr name) ++ "_" ++ Nat.repr rid ++ ".jpg")

/-- An extractor that detects exactly one face in every image. -/
def exOne : Extractor := ⟨fun _ => [0], fun c => c⟩

/-- An extractor that detects two faces in every image. -/
def exTwo : Extractor := ⟨fun _ => [0, 1], fun c => c⟩

/-! ### Helper lemmas on characters and strings -/

theorem char_lower_lower (c : Char) : c.toLower.toLower = c.toLower := by
  unfold Char.toLower
  by_cases h : 65 ≤ c.toNat ∧ c.toNat ≤ 90
  · rw [if_pos h]
    have h65 : 65 ≤ c.toNat := h.1
    have h90 : c.toNat ≤ 90 := h.2
    generalize c.toNat = n at h65 h90
    interval_cases n <;> decide
  · rw [if_neg h, if_neg h]

theorem char_lower_upper (c : Char) : c.toUpper.toLower = c.toLower := by
  unfold Char.toUpper Char.toLower
  by_cases h : 97 ≤ c.toNat ∧ c.toNat ≤ 122
  · rw [if_pos h]
    have h97 : 97 ≤ c.toNat := h.1
    have h122 : c.toNat ≤ 122 := h.2
    have hne : ¬ (65 ≤ c.toNat ∧ c.toNat ≤ 90) := by omega
    rw [if_neg hne]
    have hofnat : Char.ofNat c.toNat = c := Char.ofNat_toNat c
    generalize hg : c.toNat = n at h97 h122 hofnat
    rw [← hofnat]
    interval_cases n <;> decide
  · rw [if_neg h]

theorem char_ws_lower (c : Char) : c.toLower.isWhitespace = c.isWhitespace := by
  unfold Char.toLower
  by_cases h : 65 ≤ c.toNat ∧ c.toNat ≤ 90
  · rw [if_pos h]
    have hs : c ≠ ' ' := by intro he; subst he; exact absurd h (by decide)
    have ht : c ≠ '\t' := by intro he; subst he; exact absurd h (by decide)
    have hr : c ≠ '\r' := by intro he; subst he; exact absurd h (by decide)
    have hn : c ≠ '\n' := by intro he; subst he; exact absurd h (by decide)
    have hrhs : c.isWhitespace = false := by
      simp [Char.isWhitespace, hs, ht, hr, hn]
    rw [hrhs]
    have h65 : 65 ≤ c.toNat := h.1
    have h90 : c.toNat ≤ 90 := h.2
    generalize c.toNat = n at h65 h90
    interval_cases n <;> decide
  · rw [if_neg h]

theorem pyTitleList_map_toLower : ∀ (b : Bool) (l : List Char),
    (pyTitleList b l).map Char.toLower = l.map Char.toLower := by
  intro b l
  induction l generalizing b with
  | nil => rfl
  | cons c cs ih =>
    by_cases h : c.isAlpha
    · cases b <;>
        simp [pyTitleList, h, char_lower_lower, char_lower_upper, ih]
    · simp [pyTitleList, h, ih]

theorem pyLower_pyTitle (s : String) : pyLower (pyTitle s) = pyLower s := by
  simp only [pyLower, pyTitle]
  exact congrArg String.mk (pyTitleList_map_toLower false s.data)

theorem pyLower_idem (s : String) : pyLower (pyLower s) = pyLower s := by
  simp only [pyLower, List.map_map]
  refine congrArg String.mk (List.map_congr_left ?_)
  intro c _
  exact char_lower_lower c

theorem dropWhile_ws_map_toLower (l : List Char) :
    (l.map Char.toLower).dropWhile Char.isWhitespace =
      (l.dropWhile Char.isWhitespace).map Char.toLower := by
  induction l with
  | nil => rfl
  | cons c cs ih =>
    simp only [List.map_cons, List.dropWhile_cons, char_ws_lower]
    by_cases h : c.isWhitespace = true
    · simp [h, ih]
    · simp [Bool.of_not_eq_true h]

theorem pyStripList_map_toLower (l : List Char) :
    pyStripList (l.map Char.toLower) = (pyStripList l).map Char.toLower := by
  simp only [pyStripList]
  rw [dropWhile_ws_map_toLower, ← List.map_reverse, dropWhile_ws_map_toLower,
    ← List.map_reverse]

theorem pyLower_pyStrip (s : String) : pyLower (pyStrip s) = pyStrip (pyLower s) := by
  simp only [pyLower, pyStrip]
  exact congrArg String.mk (pyStripList_map_toLower s.data).symm

theorem norm_effName (x : String) : pyLower (pyTitle (effName x)) = effName x := by
  rw [pyLower_pyTitle, effName, pyLower_pyStrip, pyLower_idem]

theorem takeWhile_append_all {p : Char → Bool} {l1 l2 : List Char}
    (h : ∀ c ∈ l1, p c = true) : (l1 ++ l2).takeWhile p = l1 ++ l2.takeWhile p := by
  induction l1 with
  | nil => simp
  | cons a t ih =>
    simp only [List.cons_append, List.takeWhile_cons]
    rw [h a (by simp)]
    simp [ih (fun c hc => h c (by simp [hc]))]

theorem strEndsWith_append (a suf : String) : strEndsWith (a ++ suf) suf = true := by
  simp [strEndsWith, List.isSuffixOf_iff_suffix, String.data_append]

theorem isImageFile_jpg (a : String) : isImageFile (a ++ ".jpg") = true := by
  simp [isImageFile, strEndsWith_append]

theorem str_append_assoc (a b c : String) : a ++ b ++ c = a ++ (b ++ c) := by
  apply String.ext
  simp [String.data_append, List.append_assoc]

theorem isDigit_ne (c : Char) (h : c.isDigit = true) :
    c ≠ '.' ∧ c ≠ '_' ∧ c ≠ '/' := by
  refine ⟨?_, ?_, ?_⟩ <;> intro he <;> subst he <;> exact absurd h (by decide)

/-! ### Helper lemmas on `Nat.repr` -/

theorem toDigitsCore_digits (b : Nat) (hb : b = 10) (fuel : Nat) :
    ∀ (n : Nat) (ds : List Char), (∀ c ∈ ds, c.isDigit = true) →
      ∀ c ∈ Nat.toDigitsCore b fuel n ds, c.isDigit = true := by
  induction fuel with
  | zero => intro n ds hds c hc; exact hds c hc
  | succ fuel ih =>
    intro n ds hds c hc
    rw [Nat.toDigitsCore] at hc
    have hdig : (Nat.digitChar (n % b)).isDigit = true := by
      subst hb
      have : n % 10 < 10 := Nat.mod_lt _ (by norm_num)
      interval_cases h : n % 10 <;> decide
    by_cases h : n / b = 0
    · rw [if_pos h] at hc
      rcases List.mem_cons.mp hc with hc | hc
      · rw [hc]; exact hdig
      · exact hds c hc
    · rw [if_neg h] at hc
      exact ih (n / b) _ (by
        intro c2 hc2
        rcases List.mem_cons.mp hc2 with hc2 | hc2
        · rw [hc2]; exact hdig
        · exact hds c2 hc2) c hc

theorem natRepr_digits (n : Nat) : ∀ c ∈ (Nat.repr n).data, c.isDigit = true := by
  intro c hc
  have hd : (Nat.repr n).data = Nat.toDigits 10 n := rfl
  rw [hd] at hc
  exact toDigitsCore_digits 10 rfl (n+1) n [] (by intro c2 hc2; cases hc2) c hc

theorem toDigitsCore_ne_nil (b : Nat) : ∀ (fuel n : Nat) (ds : List Char),
    ds ≠ [] ∨ fuel ≠ 0 → Nat.toDigitsCore b fuel n ds ≠ [] := by
  intro fuel
  induction fuel with
  | zero =>
    intro n ds h
    rcases h with h | h
    · exact h
    · exact absurd rfl h
  | succ fuel ih =>
    intro n ds _
    rw [Nat.toDigitsCore]
    by_cases hz : n / b = 0
    · rw [if_pos hz]; exact List.cons_ne_nil _ _
    · rw [if_neg hz]
      exact ih (n / b) _ (Or.inl (List.cons_ne_nil _ _))

theorem natRepr_ne_nil (n : Nat) : (Nat.repr n).data ≠ [] := by
  have hd : (Nat.repr n).data = Nat.toDigits 10 n := rfl
  rw [hd, Nat.toDigits]
  exact toDigitsCore_ne_nil 10 (n+1) n [] (Or.inr (by omega))

/-! ### Helper lemmas on the store -/

theorem fsGet_write_self (r : FileRef) (c : Content) :
    ∀ fs : Store, fsGet (fsWrite r c fs) r = some c := by
  intro fs
  induction fs with
  | nil => simp [fsWrite, fsGet]
  | cons p rest ih =>
    by_cases h : p.1 = r
    · simp [fsWrite, h, fsGet]
    · simpa [fsWrite, h, fsGet] using ih

theorem fsWrite_mem_self (r : FileRef) (c : Content) :
    ∀ fs : Store, (r, c) ∈ fsWrite r c fs := by
  intro fs
  induction fs with
  | nil => simp [fsWrite]
  | cons p rest ih =>
    by_cases h : p.1 = r
    · simp [fsWrite, h]
    · simp only [fsWrite, if_neg h, List.mem_cons]
      exact Or.inr ih

theorem fsExists_of_mem {fs : Store} {r : FileRef} {c : Content}
    (h : (r, c) ∈ fs) : fsExists fs r = true := by
  simp only [fsExists, List.any_eq_true]
  exact ⟨(r, c), h, by simp⟩

theorem fsWrite_not_exists (r : FileRef) (c : Content) :
    ∀ fs : Store, fsExists fs r = false → fsWrite r c fs = fs ++ [(r, c)] := by
  intro fs
  induction fs with
  | nil => intro _; rfl
  | cons p rest ih =>
    intro h
    simp only [fsExists, List.any_cons, Bool.or_eq_false_iff, decide_eq_false_iff_not] at h
    simp only [fsWrite, if_neg h.1, List.cons_append]
    congr 1
    exact ih h.2

theorem mem_fsWrite {q : FileRef × Content} {r : FileRef} {c : Content} :
    ∀ {fs : Store}, q ∈ fsWrite r c fs → q = (r, c) ∨ q ∈ fs := by
  intro fs
  induction fs with
  | nil => intro h; simp [fsWrite] at h; exact Or.inl h
  | cons p rest ih =>
    intro h
    by_cases hp : p.1 = r
    · simp only [fsWrite, if_pos hp, List.mem_cons] at h
      rcases h with h | h
      · exact Or.inl h
      · exact Or.inr (List.mem_cons.mpr (Or.inr h))
    · simp only [fsWrite, if_neg hp, List.mem_cons] at h
      rcases h with h | h
      · exact Or.inr (List.mem_cons.mpr (Or.inl h))
      · rcases ih h with h2 | h2
        · exact Or.inl h2
        · exact Or.inr (List.mem_cons.mpr (Or.inr h2))

theorem mem_fsRemove {q : FileRef × Content} {fs : Store} {r : FileRef}
    (h : q ∈ fsRemove fs r) : q ∈ fs :=
  (List.eraseP_sublist fs).mem h

theorem knownImageFiles_append (fs1 fs2 : Store) :
    knownImageFiles (fs1 ++ fs2) = knownImageFiles fs1 ++ knownImageFiles fs2 := by
  simp [knownImageFiles, List.filter_append]

theorem knownImageFiles_write_not_known (r : FileRef) (c : Content)
    (hr : isKnownImage r = false) :
    ∀ fs : Store, knownImageFiles (fsWrite r c fs) = knownImageFiles fs := by
  intro fs
  induction fs with
  | nil => simp [fsWrite, knownImageFiles, hr]
  | cons p rest ih =>
    by_cases hp : p.1 = r
    · have hrp : isKnownImage p.1 = false := by rw [hp]; exact hr
      simp only [fsWrite, if_pos hp, knownImageFiles, List.filter_cons]
      simp [hr, hrp]
    · simp only [fsWrite, if_neg hp, knownImageFiles, List.filter_cons]
      by_cases hk : isKnownImage p.1 = true
      · simp only [hk, if_pos]
        simpa [knownImageFiles] using congrArg (List.cons p) ih
      · simp only [Bool.of_not_eq_true hk]
        simpa [knownImageFiles] using ih

/-! ### Helper lemmas on the index rebuild -/

theorem loadGo_parallel (E : Extractor) : ∀ fs : Store, indexParallel (loadGo E fs) := by
  intro fs
  induction fs with
  | nil => exact ⟨rfl, rfl⟩
  | cons p rest ih =>
    rcases p with ⟨r, c⟩
    rcases r with ⟨folder, basename⟩ | basename
    · by_cases himg : isImageFile basename = true
      · cases hE : E.encs c with
        | nil => simpa [loadGo, himg, hE] using ih
        | cons e es =>
          rcases ih with ⟨ih1, ih2⟩
          refine ⟨?_, ?_⟩ <;> simp [loadGo, himg, hE, ih1, ih2]
      · simpa [loadGo, Bool.of_not_eq_true himg] using ih
    · simpa [loadGo] using ih

theorem loadGo_enc_length (E : Extractor) : ∀ fs : Store,
    (loadGo E fs).known_face_encodings.length = (facedKnownFiles E fs).length := by
  intro fs
  induction fs with
  | nil => rfl
  | cons p rest ih =>
    rcases p with ⟨r, c⟩
    rcases r with ⟨folder, basename⟩ | basename
    · by_cases himg : isImageFile basename = true
      · cases hE : E.encs c with
        | nil =>
          simp [loadGo, himg, hE, facedKnownFiles, knownImageFiles, List.filter_cons,
            isKnownImage, ih]
        | cons e es =>
          simp [loadGo, himg, hE, facedKnownFiles, knownImageFiles, List.filter_cons,
            isKnownImage, ih]
      · simp [loadGo, Bool.of_not_eq_true himg, facedKnownFiles, knownImageFiles,
          List.filter_cons, isKnownImage, ih]
    · simp [loadGo, facedKnownFiles, knownImageFiles, List.filter_cons, isKnownImage, ih]

theorem loadGo_record_mem (E : Extractor) : ∀ (fs : Store) (nm b : String),
    (nm, b) ∈ ((loadGo E fs).known_face_names.zip (loadGo E fs).known_face_filenames) →
    ∃ folder c, nm = pyTitle folder ∧ (FileRef.known folder b, c) ∈ fs ∧
      isImageFile b = true := by
  intro fs
  induction fs with
  | nil => intro nm b h; simp [loadGo] at h
  | cons p rest ih =>
    intro nm b h
    rcases p with ⟨r, c⟩
    rcases r with ⟨folder, basename⟩ | basename
    · by_cases himg : isImageFile basename = true
      · cases hE : E.encs c with
        | nil =>
          simp only [loadGo, himg, if_pos, hE] at h
          rcases ih nm b h with ⟨f2, c2, h1, h2, h3⟩
          exact ⟨f2, c2, h1, List.mem_cons.mpr (Or.inr h2), h3⟩
        | cons e es =>
          simp only [loadGo, himg, if_pos, hE, List.zip_cons_cons, List.mem_cons,
            Prod.mk.injEq] at h
          rcases h with ⟨h1, h2⟩ | h
          · exact ⟨folder, c, h1, by rw [h2]; exact List.mem_cons_self _ _, h2 ▸ himg⟩
          · rcases ih nm b h with ⟨f2, c2, h1, h2, h3⟩
            exact ⟨f2, c2, h1, List.mem_cons.mpr (Or.inr h2), h3⟩
      · simp only [loadGo, Bool.of_not_eq_true himg] at h
        rw [if_neg (by simp [Bool.of_not_eq_true himg])] at h
        rcases ih nm b h with ⟨f2, c2, h1, h2, h3⟩
        exact ⟨f2, c2, h1, List.mem_cons.mpr (Or.inr h2), h3⟩
    · simp only [loadGo] at h
      rcases ih nm b h with ⟨f2, c2, h1, h2, h3⟩
      exact ⟨f2, c2, h1, List.mem_cons.mpr (Or.inr h2), h3⟩

/-! ### Helper lemmas on `pyRound` -/

theorem floor_le_pyRound (q : ℚ) : ⌊q⌋ ≤ pyRound q := by
  unfold pyRound
  split_ifs <;> omega

theorem pyRound_le_floor_succ (q : ℚ) : pyRound q ≤ ⌊q⌋ + 1 := by
  unfold pyRound
  split_ifs <;> omega

theorem pyRound_nonneg {q : ℚ} (h : 0 ≤ q) : 0 ≤ pyRound q :=
  le_trans (Int.floor_nonneg.mpr h) (floor_le_pyRound q)

theorem pyRound_le_cast {q : ℚ} {n : ℤ} (h : q ≤ (n : ℚ)) : pyRound q ≤ n := by
  have hfl : ⌊q⌋ ≤ n := by
    have := Int.floor_le_floor h
    rwa [Int.floor_intCast] at this
  have hq : (⌊q⌋ : ℚ) ≤ q := Int.floor_le q
  unfold pyRound
  split_ifs with h1 h2 h3
  · exact hfl
  · have hlt : (⌊q⌋ : ℚ) < (n : ℚ) := by linarith
    have : ⌊q⌋ < n := by exact_mod_cast hlt
    omega
  · omega
  · have hle : (⌊q⌋ : ℚ) + 1/2 ≤ q := by linarith
    have hlt : (⌊q⌋ : ℚ) < (n : ℚ) := by linarith
    have : ⌊q⌋ < n := by exact_mod_cast hlt
    omega

theorem pyRound_mono {a b : ℚ} (hab : a ≤ b) : pyRound a ≤ pyRound b := by
  have hf : ⌊a⌋ ≤ ⌊b⌋ := Int.floor_le_floor hab
  rcases eq_or_lt_of_le hf with heq | hlt
  · have hr : a - (⌊a⌋ : ℚ) ≤ b - (⌊b⌋ : ℚ) := by
      have : (⌊a⌋ : ℚ) = (⌊b⌋ : ℚ) := by exact_mod_cast heq
      linarith
    unfold pyRound
    rw [← heq]
    rw [show ((⌊b⌋ : ℚ)) = ((⌊a⌋ : ℚ)) from by exact_mod_cast heq.symm] at hr
    split_ifs <;> first | omega | linarith
  · calc pyRound a ≤ ⌊a⌋ + 1 := pyRound_le_floor_succ a
      _ ≤ ⌊b⌋ := by omega
      _ ≤ pyRound b := floor_le_pyRound b

/-! ### Helper lemmas for the invariants -/

theorem step_preserves_parallel (E : Extractor) (s : FacialRecognition) (op : Op)
    (h : indexParallel s.index) : indexParallel (step E s op).index := by
  cases op with
  | saveOp img name rid =>
    cases hE : E.encs img with
    | nil => simpa [step, save_face_image, hE] using h
    | cons e es =>
      rcases h with ⟨h1, h2⟩
      constructor <;> simp [step, save_face_image, hE, h1, h2]
  | labelOp url name rid =>
    cases hg : fsGet s.fs url with
    | none => simpa [step, label_image, hg] using h
    | some c =>
      simpa [step, label_image, hg, load_known_faces] using loadGo_parallel E _
  | deleteOp url =>
    cases hg : fsGet s.fs url with
    | none => simpa [step, delete_image, hg] using h
    | some c =>
      simpa [step, delete_image, hg, load_known_faces] using loadGo_parallel E _

theorem run_parallel (E : Extractor) : ∀ (ops : List Op) (s : FacialRecognition),
    indexParallel s.index → indexParallel (run E s ops).index := by
  intro ops
  induction ops with
  | nil => intro s h; exact h
  | cons op rest ih =>
    intro s h
    exact ih (step E s op) (step_preserves_parallel E s op h)

theorem fdLoadGo_parallel : ∀ fs : Store, (fdLoadGo fs).1.length = (fdLoadGo fs).2.length := by
  intro fs
  induction fs with
  | nil => rfl
  | cons p rest ih =>
    rcases p with ⟨r, c⟩
    rcases r with ⟨folder, basename⟩ | basename
    · by_cases himg : isImageFile basename = true
      · simp [fdLoadGo, himg, ih]
      · simpa [fdLoadGo, Bool.of_not_eq_true himg] using ih
    · simpa [fdLoadGo] using ih

theorem fdStep_preserves_parallel (s : FaceDatabase) (op : FDOp)
    (h : s.known_face_names.length = s.known_face_file_urls.length) :
    (fdStep s op).known_face_names.length = (fdStep s op).known_face_file_urls.length := by
  cases op with
  | saveOp name img rid => simp [fdStep, fd_save_face_image, h]
  | labelOp url name rid =>
    cases hg : fsGet s.fs url with
    | none => simpa [fdStep, fd_label_image, hg] using h
    | some c => simpa [fdStep, fd_label_image, hg] using fdLoadGo_parallel _
  | deleteOp url =>
    cases hg : fsGet s.fs url with
    | none => simpa [fdStep, fd_delete_image, hg] using h
    | some c => simpa [fdStep, fd_delete_image, hg] using fdLoadGo_parallel _
  | removeAt i =>
    by_cases hcond : i < 0 ∨ (s.known_face_names.length : ℤ) ≤ i
    · simpa [fdStep, fd_remove_face_at_index, hcond] using h
    · have hi : i.toNat < s.known_face_names.length := by
        push_neg at hcond
        omega
      have hi2 : i.toNat < s.known_face_file_urls.length := by omega
      simp only [fdStep, fd_remove_face_at_index, if_neg hcond]
      simp [List.length_eraseIdx, hi, hi2]
      omega

theorem fdRun_parallel : ∀ (ops : List FDOp) (s : FaceDatabase),
    s.known_face_names.length = s.known_face_file_urls.length →
    (fdRun s ops).known_face_names.length = (fdRun s ops).known_face_file_urls.length := by
  intro ops
  induction ops with
  | nil => intro s h; exact h
  | cons op rest ih =>
    intro s h
    exact ih (fdStep s op) (fdStep_preserves_parallel s op h)

/-! ### Claim theorems -/

/-- C1: the claim states that the matcher's verdict is Matched iff the index
is non-empty, the best candidate passes the tolerance gate and its distance
is strictly below the match threshold, and that a nearest neighbour at
distance exactly 0.5 (tolerance 0.6, threshold 0.5) yields Unknown.  This
theorem evaluates the code at the claim's inputs: the CLI matcher
(`best_match_index > 0`) answers "unknown" for a single known face at
distance 0.1 even though all three conditions of the claim hold, and the
watch matcher (no match threshold at all) answers with a match, confidence
50, at distance exactly 0.5. -/
theorem matcher_gate_evaluation :
    cli_recognize_face ["alice"] [1/10] (3/5) (1/2) = "unknown" ∧
    watch_recognize_face ["Dagmar Timler"] [1/2] (3/5) = ("Dagmar Timler", 50) := by
  constructor
  · norm_num [cli_recognize_face, faceArgmin, argminFrom, compare_faces]
  · norm_num [watch_recognize_face, faceArgmin, argminFrom, compare_faces,
      distance_to_confidence, pyRound]

/-- C5: `delete(fileRef)` fails with NotFound when the file is absent,
leaving store and index unchanged; when it exists it returns the snapshot
(fileRef, name derived from the basename, contents read before removal),
removes the file and rebuilds the index from the remaining store. -/
theorem delete_image_spec :
    ∀ (E : Extractor) (s : FacialRecognition) (url : FileRef),
      (fsGet s.fs url = none →
        delete_image E s url = Except.error Err.notFound ∧
        step E s (Op.deleteOp url) = s) ∧
      (∀ c, fsGet s.fs url = some c →
        delete_image E s url =
          Except.ok ((url, get_name_from_filename url.base, c),
            ⟨fsRemove s.fs url, load_known_faces E (fsRemove s.fs url)⟩)) := by
  intro E s url
  constructor
  · intro h
    constructor
    · simp [delete_image, h]
    · simp [step, delete_image, h]
  · intro c h
    simp [delete_image, h]

/-- Witness for C5 at a concrete store: deleting an existing unknown image
returns its snapshot, deleting a missing one fails. -/
theorem delete_image_spec_witness :
    delete_image exOne ⟨[(FileRef.unk "unknown_1.jpg", 7)], ⟨[], [], []⟩⟩
        (FileRef.unk "unknown_1.jpg") =
      Except.ok ((FileRef.unk "unknown_1.jpg", "unknown", 7), ⟨[], ⟨[], [], []⟩⟩) ∧
    delete_image exOne ⟨[], ⟨[], [], []⟩⟩ (FileRef.unk "zzz.jpg") =
      Except.error Err.notFound := by
  constructor
  · have h := (delete_image_spec exOne ⟨[(FileRef.unk "unknown_1.jpg", 7)], ⟨[], [], []⟩⟩
        (FileRef.unk "unknown_1.jpg")).2 7 (by rfl)
    rw [h]
    rfl
  · exact ((delete_image_spec exOne ⟨[], ⟨[], [], []⟩⟩ (FileRef.unk "zzz.jpg")).1 (by rfl)).1

/-- C7: with the default max distance 1.0, the confidence function returns
round(100 * (1 - min(distance, 1)/1)) (Python's round, half to even), the
result lies in [0, 100] for every distance ≥ 0, and the function is
monotonically non-increasing in the distance. -/
theorem confidence_spec :
    (∀ d : ℚ, 0 ≤ d →
      distance_to_confidence d 1 = pyRound (100 * (1 - min d 1 / 1)) ∧
      0 ≤ distance_to_confidence d 1 ∧ distance_to_confidence d 1 ≤ 100) ∧
    (∀ d1 d2 : ℚ, d1 ≤ d2 → distance_to_confidence d2 1 ≤ distance_to_confidence d1 1) := by
  constructor
  · intro d hd
    have hmin0 : 0 ≤ min d 1 := le_min hd (by norm_num)
    have hmin1 : min d 1 ≤ 1 := min_le_right d 1
    refine ⟨?_, ?_, ?_⟩
    · simp only [distance_to_confidence]
      congr 1
      ring
    · simp only [distance_to_confidence]
      apply pyRound_nonneg
      rw [div_one]
      linarith
    · simp only [distance_to_confidence]
      apply pyRound_le_cast
      push_cast
      rw [div_one]
      linarith
  · intro d1 d2 h
    simp only [distance_to_confidence]
    apply pyRound_mono
    have hm : min d1 1 ≤ min d2 1 := min_le_min h le_rfl
    rw [div_one, div_one]
    linarith

/-- Witness for C7 at concrete distances 1/4 and 1/2. -/
theorem confidence_spec_witness :
    0 ≤ distance_to_confidence (1/4 : ℚ) 1 ∧ distance_to_confidence (1/4 : ℚ) 1 ≤ 100 ∧
    distance_to_confidence (1/2 : ℚ) 1 ≤ distance_to_confidence (1/4 : ℚ) 1 :=
  ⟨(confidence_spec.1 (1/4) (by norm_num)).2.1,
   (confidence_spec.1 (1/4) (by norm_num)).2.2,
   confidence_spec.2 (1/4) (1/2) (by norm_num)⟩

/-- C9: the parallel index lists always have equal length: the three
`known_face_*` lists of `FacialRecognition` after any sequence of
save/label/delete operations from a freshly loaded state, and the two lists
of `FaceDatabase` after any sequence of its operations including
`remove_face_at_index`. -/
theorem parallel_lists_invariant :
    (∀ (E : Extractor) (fs : Store) (ops : List Op),
      indexParallel (run E (frInit E fs) ops).index) ∧
    (∀ (fs : Store) (ops : List FDOp),
      (fdRun (fdInit fs) ops).known_face_names.length =
        (fdRun (fdInit fs) ops).known_face_file_urls.length) := by
  constructor
  · intro E fs ops
    exact run_parallel E ops (frInit E fs) (loadGo_parallel E fs)
  · intro fs ops
    exact fdRun_parallel ops (fdInit fs) (fdLoadGo_parallel fs)

/-- Counterexample to C3 as stated: with an extractor that detects two faces
in the probe image, `save_face_image` does not fail with MultipleFacesFound;
it succeeds, and both the store and the index change. -/
theorem save_two_faces_counterexample :
    (exTwo.encs 0).length = 2 ∧
    save_face_image exTwo (frInit exTwo []) 0 "x" 5 =
      Except.ok (FileRef.known "x" "x_5.jpg",
        ⟨[(FileRef.known "x" "x_5.jpg", 0)], ⟨[0], ["X"], ["x_5.jpg"]⟩⟩) := by
  exact ⟨rfl, rfl⟩

/-- C3 (amended): `save` performs no multiple-face check.  Whenever the
extractor detects at least one region — in particular two or more — the save
succeeds: the image cropped to the first detected region is written at the
returned fileRef and the first region's encoding is appended to the index,
each index list growing by one.  Only zero detected regions fails, with
NoFaceFound, and that failure leaves store and index unchanged. -/
theorem save_no_multi_face_check :
    ∀ (E : Extractor) (s : FacialRecognition) (img : Content) (name : String) (rid : ℕ),
      (E.encs img = [] →
        save_face_image E s img name rid = Except.error Err.noFaceFound ∧
        step E s (Op.saveOp img name rid) = s) ∧
      (∀ e rest, E.encs img = e :: rest →
        ∃ r s2, save_face_image E s img name rid = Except.ok (r, s2) ∧
          fsGet s2.fs r = some (E.crop img) ∧
          s2.index.known_face_encodings = s.index.known_face_encodings ++ [e] ∧
          s2.index.known_face_names.length = s.index.known_face_names.length + 1 ∧
          s2.index.known_face_filenames.length = s.index.known_face_filenames.length + 1) := by
  intro E s img name rid
  constructor
  · intro h
    exact ⟨by simp [save_face_image, h], by simp [step, save_face_image, h]⟩
  · intro e rest h
    have hsave : save_face_image E s img name rid =
        Except.ok ((if effName name = "unknown"
            then FileRef.unk (effName name ++ "_" ++ Nat.repr rid ++ ".jpg")
            else FileRef.known (effName name) (effName name ++ "_" ++ Nat.repr rid ++ ".jpg")),
          ⟨fsWrite (if effName name = "unknown"
              then FileRef.unk (effName name ++ "_" ++ Nat.repr rid ++ ".jpg")
              else FileRef.known (effName name) (effName name ++ "_" ++ Nat.repr rid ++ ".jpg"))
            (E.crop img) s.fs,
           ⟨s.index.known_face_encodings ++ [e],
            s.index.known_face_names ++ [pyTitle (effName name)],
            s.index.known_face_filenames ++ [effName name ++ "_" ++ Nat.repr rid ++ ".jpg"]⟩⟩) := by
      simp only [save_face_image, h]
    exact ⟨_, _, hsave, fsGet_write_self _ _ _, rfl, by simp, by simp⟩

/-- Witness for C3 (amended): a two-face image saved on the empty state. -/
theorem save_no_multi_face_check_witness :
    exTwo.encs 0 = 0 :: [1] ∧
    ∃ r s2, save_face_image exTwo (frInit exTwo []) 0 "x" 5 = Except.ok (r, s2) ∧
      fsGet s2.fs r = some (exTwo.crop 0) ∧
      s2.index.known_face_encodings =
        (frInit exTwo []).index.known_face_encodings ++ [0] ∧
      s2.index.known_face_names.length =
        (frInit exTwo []).index.known_face_names.length + 1 ∧
      s2.index.known_face_filenames.length =
        (frInit exTwo []).index.known_face_filenames.length + 1 :=
  ⟨rfl, (save_no_multi_face_check exTwo (frInit exTwo []) 0 "x" 5).2 0 [1] rfl⟩

/-- C6: saving an image with exactly one detected face under the name
"John Doe" returns the fileRef `known/john doe/john doe_<digits>.jpg` — the
name lowercased and trimmed in both the folder and the filename prefix, the
random draw (a non-empty digit string) as suffix, extension `.jpg` — and
each of the three index lists grows by exactly one record. -/
theorem save_scenario_c :
    ∀ (E : Extractor) (s : FacialRecognition) (img : Content) (rid : ℕ) (e : Emb),
      E.encs img = [e] → rid ≤ 1000000 →
      ∃ s2, save_face_image E s img "John Doe" rid =
          Except.ok (FileRef.known "john doe" ("john doe" ++ "_" ++ Nat.repr rid ++ ".jpg"),
            s2) ∧
        (FileRef.known "john doe" ("john doe" ++ "_" ++ Nat.repr rid ++ ".jpg")).path =
          "known/john doe/john doe_" ++ Nat.repr rid ++ ".jpg" ∧
        (Nat.repr rid).data ≠ [] ∧ (∀ ch ∈ (Nat.repr rid).data, ch.isDigit = true) ∧
        s2.index.known_face_encodings.length = s.index.known_face_encodings.length + 1 ∧
        s2.index.known_face_names.length = s.index.known_face_names.length + 1 ∧
        s2.index.known_face_filenames.length = s.index.known_face_filenames.length + 1 := by
  intro E s img rid e h1 _
  have heff : effName "John Doe" = "john doe" := by decide
  have hsave : save_face_image E s img "John Doe" rid =
      Except.ok (FileRef.known "john doe" ("john doe" ++ "_" ++ Nat.repr rid ++ ".jpg"),
        ⟨fsWrite (FileRef.known "john doe" ("john doe" ++ "_" ++ Nat.repr rid ++ ".jpg"))
            (E.crop img) s.fs,
         ⟨s.index.known_face_encodings ++ [e],
          s.index.known_face_names ++ [pyTitle "john doe"],
          s.index.known_face_filenames ++ ["john doe" ++ "_" ++ Nat.repr rid ++ ".jpg"]⟩⟩) := by
    simp only [save_face_image, h1, heff]
    rfl
  exact ⟨_, hsave, rfl, natRepr_ne_nil rid, natRepr_digits rid, by simp, by simp, by simp⟩

/-- Witness for C6 with the one-face extractor and the draw 42. -/
theorem save_scenario_c_witness :
    exOne.encs 0 = [0] ∧ (42 : ℕ) ≤ 1000000 ∧
    ∃ s2, save_face_image exOne (frInit exOne []) 0 "John Doe" 42 =
        Except.ok (FileRef.known "john doe" ("john doe" ++ "_" ++ Nat.repr 42 ++ ".jpg"),
          s2) ∧
      (FileRef.known "john doe" ("john doe" ++ "_" ++ Nat.repr 42 ++ ".jpg")).path =
        "known/john doe/john doe_" ++ Nat.repr 42 ++ ".jpg" ∧
      (Nat.repr 42).data ≠ [] ∧ (∀ ch ∈ (Nat.repr 42).data, ch.isDigit = true) ∧
      s2.index.known_face_encodings.length =
        (frInit exOne []).index.known_face_encodings.length + 1 ∧
      s2.index.known_face_names.length =
        (frInit exOne []).index.known_face_names.length + 1 ∧
      s2.index.known_face_filenames.length =
        (frInit exOne []).index.known_face_filenames.length + 1 :=
  ⟨rfl, by norm_num, save_scenario_c exOne (frInit exOne []) 0 42 0 rfl (by norm_num)⟩

/-- Auxiliary for `pyBasename_append`, at the level of char lists. -/
theorem takeWhile_slash_rev (A B : List Char) (hB : ∀ ch ∈ B, ch ≠ '/') :
    (List.takeWhile (fun c => c != '/') (((A ++ ['/']) ++ B).reverse)).reverse = B := by
  rw [List.reverse_append, List.reverse_append]
  simp only [List.reverse_cons, List.reverse_nil, List.nil_append]
  rw [takeWhile_append_all (p := fun c => c != '/') ?hall]
  · simp
  case hall =>
    intro c hc
    simpa using hB c (List.mem_reverse.mp hc)

/-- `os.path.basename` of a path ending in a slash-free component. -/
theorem pyBasename_append (a b : String) (hb : ∀ ch ∈ b.data, ch ≠ '/') :
    pyBasename (a ++ "/" ++ b) = b := by
  show String.mk
      (List.takeWhile (fun c => c != '/') (((a.data ++ ['/']) ++ b.data).reverse)).reverse = b
  rw [takeWhile_slash_rev a.data b.data hb]

/-- Counterexample to C4 as stated: the derived display name comes from the
filename prefix, not from the containing folder: `known/alice/bob_1.jpg` is
displayed as "Bob", not the title-cased folder name "Alice", and
`unknown/zoe_1.jpg` is displayed as "Zoe", not the literal "unknown". -/
theorem name_derivation_counterexample :
    fd_get_name_from_filename "known/alice/bob_1.jpg" = "Bob" ∧
    fd_get_name_from_filename "known/alice/bob_1.jpg" ≠ pyTitle "alice" ∧
    fd_get_name_from_filename "unknown/zoe_1.jpg" = "Zoe" ∧
    fd_get_name_from_filename "unknown/zoe_1.jpg" ≠ "unknown" := by
  refine ⟨?_, ?_, ?_, ?_⟩ <;> decide

/-- C4 (amended): the display name derived for a fileRef is a function of
the file's basename alone — the basename prefix before the first `.` and
then before the first `_`, kept as-is when it is exactly `"unknown"` and
title-cased otherwise.  For every slash-free basename, the derivation on a
full fileRef equals the watch derivation on the basename, identically for
`known/<folder>/` (whatever the folder) and for `unknown/`. -/
theorem name_derivation_from_basename :
    ∀ (folder basename : String), (∀ ch ∈ basename.data, ch ≠ '/') →
      fd_get_name_from_filename (FileRef.known folder basename).path =
        get_name_from_filename basename ∧
      fd_get_name_from_filename (FileRef.unk basename).path =
        get_name_from_filename basename := by
  intro folder basename hb
  constructor
  · show fd_get_name_from_filename ("known/" ++ folder ++ "/" ++ basename) = _
    rw [fd_get_name_from_filename, pyBasename_append _ _ hb]
    rfl
  · show fd_get_name_from_filename ("unknown" ++ "/" ++ basename) = _
    rw [fd_get_name_from_filename, pyBasename_append _ _ hb]
    rfl

/-- Witness for C4 (amended) at the basename of the counterexample. -/
theorem name_derivation_from_basename_witness :
    fd_get_name_from_filename (FileRef.known "alice" "bob_1.jpg").path =
      get_name_from_filename "bob_1.jpg" ∧
    fd_get_name_from_filename (FileRef.unk "bob_1.jpg").path =
      get_name_from_filename "bob_1.jpg" :=
  name_derivation_from_basename "alice" "bob_1.jpg" (by decide)

/-! ### Helper lemmas for label, save and listing -/

theorem save_ok_eq (E : Extractor) (s : FacialRecognition) (img : Content) (name : String)
    (rid : ℕ) (e : Emb) (rest : List Emb) (h : E.encs img = e :: rest) :
    save_face_image E s img name rid =
      Except.ok (saveDest name rid,
        ⟨fsWrite (saveDest name rid) (E.crop img) s.fs,
         ⟨s.index.known_face_encodings ++ [e],
          s.index.known_face_names ++ [pyTitle (effName name)],
          s.index.known_face_filenames ++ [effName name ++ "_" ++ Nat.repr rid ++ ".jpg"]⟩⟩) := by
  simp only [save_face_image, h]
  rfl

theorem label_ok_eq (E : Extractor) (s : FacialRecognition) (url : FileRef)
    (name : Option String) (rid : ℕ) (c : Content) (h : fsGet s.fs url = some c) :
    label_image E s url name rid =
      Except.ok (labelDest name rid,
        ⟨fsWrite (labelDest name rid) c (fsRemove s.fs url),
         load_known_faces E (fsWrite (labelDest name rid) c (fsRemove s.fs url))⟩) := by
  simp only [label_image, h]
  rfl

theorem get_all_images_known_mem (s : FacialRecognition) (rawName : String)
    (hun : unknownishName (some rawName) = false)
    (f b : String) (c : Content) (hmem : (FileRef.known f b, c) ∈ s.fs)
    (hf : f = effName rawName) (himg : isImageFile b = true) :
    FileRef.known f b ∈ (get_all_images s (some rawName)).map (fun t => t.1) := by
  simp only [get_all_images]
  rw [if_neg (by simp [hun])]
  refine List.mem_map.mpr ⟨(FileRef.known f b, get_name_from_filename b, c), ?_, rfl⟩
  refine List.mem_filterMap.mpr ⟨(FileRef.known f b, c), hmem, ?_⟩
  simp [hf, himg, optStr]

theorem get_all_images_unknown_mem (s : FacialRecognition) (b : String) (c : Content)
    (hmem : (FileRef.unk b, c) ∈ s.fs) (himg : isImageFile b = true) :
    FileRef.unk b ∈ (get_all_images s none).map (fun t => t.1) := by
  simp only [get_all_images]
  rw [if_pos (show unknownishName none = true from rfl)]
  refine List.mem_map.mpr ⟨(FileRef.unk b, get_name_from_filename b, c), ?_, rfl⟩
  refine List.mem_filterMap.mpr ⟨(FileRef.unk b, c), hmem, ?_⟩
  simp [himg]

/-- The shape of the name derived from a generated filename
`<pre>_<digits>.jpg` whose prefix holds no `.` and no `_`. -/
theorem gnffShape (pre d : String)
    (hpre : ∀ ch ∈ pre.data, ch ≠ '.' ∧ ch ≠ '_')
    (hd : ∀ ch ∈ d.data, ch.isDigit = true) :
    get_name_from_filename (pre ++ "_" ++ d ++ ".jpg") =
      (if pre = "unknown" then pre else pyTitle pre) := by
  have hdot : pyHeadSplit '.' (pre ++ "_" ++ d ++ ".jpg") = pre ++ "_" ++ d := by
    show String.mk (List.takeWhile (fun c => c != '.')
        (((pre.data ++ ['_']) ++ d.data) ++ ('.' :: "jpg".data))) = pre ++ "_" ++ d
    rw [takeWhile_append_all (p := fun c => c != '.') ?h1]
    · rw [show List.takeWhile (fun c => c != '.') ('.' :: "jpg".data) = [] from rfl,
        List.append_nil]
      rfl
    case h1 =>
      intro ch hc
      rcases List.mem_append.mp hc with hc2 | hc2
      · rcases List.mem_append.mp hc2 with hc3 | hc3
        · simpa using (hpre ch hc3).1
        · simp only [List.mem_singleton] at hc3
          subst hc3
          decide
      · simpa using (isDigit_ne ch (hd ch hc2)).1
  have hund : pyHeadSplit '_' (pre ++ "_" ++ d) = pre := by
    show String.mk (List.takeWhile (fun c => c != '_') ((pre.data ++ ['_']) ++ d.data)) = pre
    rw [List.append_assoc]
    rw [takeWhile_append_all (p := fun c => c != '_') ?h2]
    · rw [show List.takeWhile (fun c => c != '_') (['_'] ++ d.data) = [] from rfl,
        List.append_nil]
    case h2 =>
      intro ch hc
      simpa using (hpre ch hc).2
  show (if pyHeadSplit '_' (pyHeadSplit '.' (pre ++ "_" ++ d ++ ".jpg")) = "unknown"
      then pyHeadSplit '_' (pyHeadSplit '.' (pre ++ "_" ++ d ++ ".jpg"))
      else pyTitle (pyHeadSplit '_' (pyHeadSplit '.' (pre ++ "_" ++ d ++ ".jpg")))) =
    (if pre = "unknown" then pre else pyTitle pre)
  rw [hdot, hund]

/-- C10: labelling with name `None` or the empty string moves the file into
unknown/ but generates the filename `None_<id>.jpg` resp. `_<id>.jpg`, so
the name later derived from that filename (by listing or delete) is the
string "None" resp. "", not the sentinel "unknown". -/
theorem label_none_empty_names :
    ∀ (E : Extractor) (s : FacialRecognition) (url : FileRef) (rid : ℕ) (c : Content),
      fsGet s.fs url = some c →
      (∃ s2, label_image E s url none rid =
          Except.ok (FileRef.unk ("None" ++ "_" ++ Nat.repr rid ++ ".jpg"), s2) ∧
          fsExists s2.fs (FileRef.unk ("None" ++ "_" ++ Nat.repr rid ++ ".jpg")) = true) ∧
      get_name_from_filename ("None" ++ "_" ++ Nat.repr rid ++ ".jpg") = "None" ∧
      (∃ s2, label_image E s url (some "") rid =
          Except.ok (FileRef.unk ("" ++ "_" ++ Nat.repr rid ++ ".jpg"), s2) ∧
          fsExists s2.fs (FileRef.unk ("" ++ "_" ++ Nat.repr rid ++ ".jpg")) = true) ∧
      get_name_from_filename ("" ++ "_" ++ Nat.repr rid ++ ".jpg") = "" := by
  intro E s url rid c h
  refine ⟨?_, ?_, ?_, ?_⟩
  · exact ⟨_, label_ok_eq E s url none rid c h,
      fsExists_of_mem (fsWrite_mem_self _ _ _)⟩
  · rw [gnffShape "None" (Nat.repr rid) (by decide) (natRepr_digits rid)]
    decide
  · exact ⟨_, label_ok_eq E s url (some "") rid c h,
      fsExists_of_mem (fsWrite_mem_self _ _ _)⟩
  · rw [gnffShape "" (Nat.repr rid) (by decide) (natRepr_digits rid)]
    decide

/-- Witness for C10 on a one-file store with draw 7. -/
theorem label_none_empty_names_witness :
    (∃ s2, label_image exOne ⟨[(FileRef.unk "a.jpg", 3)], ⟨[], [], []⟩⟩
        (FileRef.unk "a.jpg") none 7 =
        Except.ok (FileRef.unk ("None" ++ "_" ++ Nat.repr 7 ++ ".jpg"), s2) ∧
        fsExists s2.fs (FileRef.unk ("None" ++ "_" ++ Nat.repr 7 ++ ".jpg")) = true) ∧
    get_name_from_filename ("None" ++ "_" ++ Nat.repr 7 ++ ".jpg") = "None" ∧
    (∃ s2, label_image exOne ⟨[(FileRef.unk "a.jpg", 3)], ⟨[], [], []⟩⟩
        (FileRef.unk "a.jpg") (some "") 7 =
        Except.ok (FileRef.unk ("" ++ "_" ++ Nat.repr 7 ++ ".jpg"), s2) ∧
        fsExists s2.fs (FileRef.unk ("" ++ "_" ++ Nat.repr 7 ++ ".jpg")) = true) ∧
    get_name_from_filename ("" ++ "_" ++ Nat.repr 7 ++ ".jpg") = "" :=
  label_none_empty_names exOne ⟨[(FileRef.unk "a.jpg", 3)], ⟨[], [], []⟩⟩
    (FileRef.unk "a.jpg") 7 3 rfl

/-- C8: round trip: saving an image with at least one detected face under
"Alice" yields a fileRef listed by `get_all_images "Alice"`, and then
labelling it "unknown" yields a new fileRef listed among the unknown images
by `get_all_images None`. -/
theorem save_label_round_trip :
    ∀ (E : Extractor) (s : FacialRecognition) (img : Content) (rid1 rid2 : ℕ),
      E.encs img ≠ [] →
      ∃ r s2 r2 s3,
        save_face_image E s img "Alice" rid1 = Except.ok (r, s2) ∧
        r ∈ (get_all_images s2 (some "Alice")).map (fun t => t.1) ∧
        label_image E s2 r (some "unknown") rid2 = Except.ok (r2, s3) ∧
        r2 ∈ (get_all_images s3 none).map (fun t => t.1) := by
  intro E s img rid1 rid2 hne
  cases hE : E.encs img with
  | nil => exact absurd hE hne
  | cons e rest =>
    have hsd : saveDest "Alice" rid1 =
        FileRef.known "alice" ("alice" ++ "_" ++ Nat.repr rid1 ++ ".jpg") := by
      rw [saveDest]
      rw [if_neg (show ¬(effName "Alice" = "unknown") from by decide)]
      rfl
    have hsave := save_ok_eq E s img "Alice" rid1 e rest hE
    rw [hsd] at hsave
    refine ⟨FileRef.known "alice" ("alice" ++ "_" ++ Nat.repr rid1 ++ ".jpg"), _,
      FileRef.unk ("unknown" ++ "_" ++ Nat.repr rid2 ++ ".jpg"),
      ⟨fsWrite (FileRef.unk ("unknown" ++ "_" ++ Nat.repr rid2 ++ ".jpg")) (E.crop img)
          (fsRemove
            (fsWrite (FileRef.known "alice" ("alice" ++ "_" ++ Nat.repr rid1 ++ ".jpg"))
              (E.crop img) s.fs)
            (FileRef.known "alice" ("alice" ++ "_" ++ Nat.repr rid1 ++ ".jpg"))),
        load_known_faces E
          (fsWrite (FileRef.unk ("unknown" ++ "_" ++ Nat.repr rid2 ++ ".jpg")) (E.crop img)
            (fsRemove
              (fsWrite (FileRef.known "alice" ("alice" ++ "_" ++ Nat.repr rid1 ++ ".jpg"))
                (E.crop img) s.fs)
              (FileRef.known "alice" ("alice" ++ "_" ++ Nat.repr rid1 ++ ".jpg"))))⟩,
      hsave, ?_, ?_, ?_⟩
    · exact get_all_images_known_mem _ "Alice" (by decide) _ _ (E.crop img)
        (fsWrite_mem_self _ _ _) (by decide) (isImageFile_jpg _)
    · have hget : fsGet (fsWrite (FileRef.known "alice"
          ("alice" ++ "_" ++ Nat.repr rid1 ++ ".jpg")) (E.crop img) s.fs)
          (FileRef.known "alice" ("alice" ++ "_" ++ Nat.repr rid1 ++ ".jpg")) =
          some (E.crop img) := fsGet_write_self _ _ _
      have hlab := label_ok_eq E
        ⟨fsWrite (FileRef.known "alice" ("alice" ++ "_" ++ Nat.repr rid1 ++ ".jpg"))
            (E.crop img) s.fs,
          ⟨s.index.known_face_encodings ++ [e],
           s.index.known_face_names ++ [pyTitle (effName "Alice")],
           s.index.known_face_filenames ++
             [effName "Alice" ++ "_" ++ Nat.repr rid1 ++ ".jpg"]⟩⟩
        (FileRef.known "alice" ("alice" ++ "_" ++ Nat.repr rid1 ++ ".jpg"))
        (some "unknown") rid2 (E.crop img) hget
      have hld : labelDest (some "unknown") rid2 =
          FileRef.unk ("unknown" ++ "_" ++ Nat.repr rid2 ++ ".jpg") := by
        rw [labelDest]
        rw [if_pos (show unknownishName (some "unknown") = true from by decide)]
        rfl
      rw [hld] at hlab
      exact hlab
    · exact get_all_images_unknown_mem _ _ (E.crop img)
        (fsWrite_mem_self _ _ _) (isImageFile_jpg _)

/-- Witness for C8 with the one-face extractor on the empty state. -/
theorem save_label_round_trip_witness :
    exOne.encs 0 ≠ [] ∧
    ∃ r s2 r2 s3,
      save_face_image exOne (frInit exOne []) 0 "Alice" 4 = Except.ok (r, s2) ∧
      r ∈ (get_all_images s2 (some "Alice")).map (fun t => t.1) ∧
      label_image exOne s2 r (some "unknown") 9 = Except.ok (r2, s3) ∧
      r2 ∈ (get_all_images s3 none).map (fun t => t.1) :=
  ⟨by decide, save_label_round_trip exOne (frInit exOne []) 0 4 9 (by decide)⟩

/-- Counterexample to C2 as stated: from the empty store, a single save with
name "unknown" writes the file under unknown/ yet still appends a record to
the known-face index lists, so index.size() is 1 while store.listKnown() is
empty; the appended record's reconstructed path known/unknown/... does not
resolve to an existing file either. -/
theorem index_store_counterexample :
    (run exOne (frInit exOne []) [Op.saveOp 0 "unknown" 1]).index.known_face_encodings.length ≠
      (knownImageFiles (run exOne (frInit exOne []) [Op.saveOp 0 "unknown" 1]).fs).length ∧
    (run exOne (frInit exOne [])
      [Op.saveOp 0 "unknown" 1]).index.known_face_encodings.length = 1 ∧
    (knownImageFiles (run exOne (frInit exOne []) [Op.saveOp 0 "unknown" 1]).fs).length = 0 ∧
    fsExists (run exOne (frInit exOne []) [Op.saveOp 0 "unknown" 1]).fs
      (FileRef.known
        (pyLower ((run exOne (frInit exOne [])
          [Op.saveOp 0 "unknown" 1]).index.known_face_names.headD ""))
        ((run exOne (frInit exOne [])
          [Op.saveOp 0 "unknown" 1]).index.known_face_filenames.headD "")) = false := by
  exact ⟨by decide, rfl, rfl, by decide⟩

/-- C2 (amended): after every successful label or delete the index is
exactly the rebuild of the resulting store, so its size equals the number of
image files under known/ in which the extractor detects at least one face —
at most store.listKnown().length, not always equal to it.  Each successful
save appends exactly one index record; it grows listKnown() by one when the
normalised name differs from "unknown" and the generated path is fresh, and
leaves listKnown() unchanged when the normalised name is "unknown" (the
record then corresponds to no known/ file at all).  Records produced by a
rebuild resolve to existing files through the known/<name.lower()>/<filename>
reconstruction provided every known folder is invariant under
title-case-then-lowercase, and every operation preserves that invariant
because save and label only create folders of the form name.lower().strip(). -/
theorem index_store_consistency :
    (∀ (E : Extractor) (fs : Store),
      (load_known_faces E fs).known_face_encodings.length = (facedKnownFiles E fs).length ∧
      (facedKnownFiles E fs).length ≤ (knownImageFiles fs).length) ∧
    (∀ (E : Extractor) (s : FacialRecognition) (url : FileRef) (name : Option String)
        (rid : ℕ) (out : FileRef × FacialRecognition),
      label_image E s url name rid = Except.ok out →
      out.2.index = load_known_faces E out.2.fs) ∧
    (∀ (E : Extractor) (s : FacialRecognition) (url : FileRef)
        (out : (FileRef × String × Content) × FacialRecognition),
      delete_image E s url = Except.ok out →
      out.2.index = load_known_faces E out.2.fs) ∧
    (∀ (E : Extractor) (s : FacialRecognition) (img : Content) (name : String) (rid : ℕ)
        (out : FileRef × FacialRecognition),
      save_face_image E s img name rid = Except.ok out →
      out.2.index.known_face_encodings.length = s.index.known_face_encodings.length + 1 ∧
      (effName name ≠ "unknown" → fsExists s.fs (saveDest name rid) = false →
        (knownImageFiles out.2.fs).length = (knownImageFiles s.fs).length + 1) ∧
      (effName name = "unknown" → knownImageFiles out.2.fs = knownImageFiles s.fs)) ∧
    (∀ (E : Extractor) (fs : Store), lowFolders fs →
      ∀ nm b, (nm, b) ∈ ((load_known_faces E fs).known_face_names.zip
          (load_known_faces E fs).known_face_filenames) →
        fsExists fs (FileRef.known (pyLower nm) b) = true) ∧
    (∀ (E : Extractor) (s : FacialRecognition) (op : Op),
      lowFolders s.fs → lowFolders (step E s op).fs) := by
  refine ⟨?_, ?_, ?_, ?_, ?_, ?_⟩
  · intro E fs
    exact ⟨loadGo_enc_length E fs, List.length_filter_le _ _⟩
  · intro E s url name rid out h
    cases hg : fsGet s.fs url with
    | none => simp [label_image, hg] at h
    | some c =>
      rw [label_ok_eq E s url name rid c hg, Except.ok.injEq] at h
      subst h
      rfl
  · intro E s url out h
    cases hg : fsGet s.fs url with
    | none => simp [delete_image, hg] at h
    | some c =>
      simp only [delete_image, hg, Except.ok.injEq] at h
      subst h
      rfl
  · intro E s img name rid out h
    cases hE : E.encs img with
    | nil => simp [save_face_image, hE] at h
    | cons e rest =>
      rw [save_ok_eq E s img name rid e rest hE, Except.ok.injEq] at h
      subst h
      refine ⟨by simp, ?_, ?_⟩
      · intro hne hfresh
        have hdest : saveDest name rid = FileRef.known (effName name)
            (effName name ++ "_" ++ Nat.repr rid ++ ".jpg") := by
          rw [saveDest, if_neg hne]
        rw [hdest] at hfresh
        show (knownImageFiles (fsWrite (saveDest name rid) (E.crop img) s.fs)).length = _
        rw [hdest, fsWrite_not_exists _ _ _ hfresh, knownImageFiles_append]
        have hone : knownImageFiles [(FileRef.known (effName name)
            (effName name ++ "_" ++ Nat.repr rid ++ ".jpg"), E.crop img)] =
            [(FileRef.known (effName name)
              (effName name ++ "_" ++ Nat.repr rid ++ ".jpg"), E.crop img)] := by
          simp [knownImageFiles, isKnownImage, isImageFile_jpg]
        rw [hone]
        simp
      · intro hu
        have hdest : saveDest name rid = FileRef.unk
            (effName name ++ "_" ++ Nat.repr rid ++ ".jpg") := by
          rw [saveDest, if_pos hu]
        show knownImageFiles (fsWrite (saveDest name rid) (E.crop img) s.fs) = _
        rw [hdest]
        exact knownImageFiles_write_not_known
          (FileRef.unk (effName name ++ "_" ++ Nat.repr rid ++ ".jpg")) (E.crop img) rfl s.fs
  · intro E fs hlow nm b hmem
    rcases loadGo_record_mem E fs nm b hmem with ⟨folder, c, hnm, hmem2, _⟩
    have hpl : pyLower nm = folder := by
      rw [hnm]
      exact hlow folder b c hmem2
    rw [hpl]
    exact fsExists_of_mem hmem2
  · intro E s op hlow
    cases op with
    | saveOp img name rid =>
      cases hE : E.encs img with
      | nil => simpa [step, save_face_image, hE] using hlow
      | cons e rest =>
        have hstep : (step E s (Op.saveOp img name rid)).fs =
            fsWrite (saveDest name rid) (E.crop img) s.fs := by
          simp [step, save_ok_eq E s img name rid e rest hE]
        rw [hstep]
        intro f b c hmem
        rcases mem_fsWrite hmem with hq | hq
        · by_cases hu : effName name = "unknown"
          · rw [saveDest, if_pos hu] at hq
            simp at hq
          · rw [saveDest, if_neg hu, Prod.mk.injEq, FileRef.known.injEq] at hq
            rw [hq.1.1]
            exact norm_effName name
        · exact hlow f b c hq
    | labelOp url name rid =>
      cases hg : fsGet s.fs url with
      | none => simpa [step, label_image, hg] using hlow
      | some c =>
        have hstep : (step E s (Op.labelOp url name rid)).fs =
            fsWrite (labelDest name rid) c (fsRemove s.fs url) := by
          simp [step, label_ok_eq E s url name rid c hg]
        rw [hstep]
        intro f b c2 hmem
        rcases mem_fsWrite hmem with hq | hq
        · by_cases hu : unknownishName name = true
          · rw [labelDest, if_pos hu] at hq
            simp at hq
          · rw [labelDest, if_neg hu, Prod.mk.injEq, FileRef.known.injEq] at hq
            rw [hq.1.1]
            exact norm_effName (optStr name)
        · exact hlow f b c2 (mem_fsRemove hq)
    | deleteOp url =>
      cases hg : fsGet s.fs url with
      | none => simpa [step, delete_image, hg] using hlow
      | some c =>
        have hstep : (step E s (Op.deleteOp url)).fs = fsRemove s.fs url := by
          simp [step, delete_image, hg]
        rw [hstep]
        intro f b c2 hmem
        exact hlow f b c2 (mem_fsRemove hmem)

/-- Witness for C2 (amended): the rebuild count on a one-file store, the
unknown-save clause on the empty state, and folder preservation after a
named save. -/
theorem index_store_consistency_witness :
    (load_known_faces exOne
        [(FileRef.known "bob" "bob_1.jpg", 5)]).known_face_encodings.length =
      (facedKnownFiles exOne [(FileRef.known "bob" "bob_1.jpg", 5)]).length ∧
    knownImageFiles
        ((⟨[(FileRef.unk "unknown_1.jpg", 0)],
          ⟨[0], ["Unknown"], ["unknown_1.jpg"]⟩⟩ : FacialRecognition)).fs =
      knownImageFiles (frInit exOne []).fs ∧
    lowFolders ((step exOne (frInit exOne []) (Op.saveOp 0 "Bob" 2)).fs) := by
  refine ⟨(index_store_consistency.1 exOne _).1, ?_, ?_⟩
  · exact (index_store_consistency.2.2.2.1 exOne (frInit exOne []) 0 "unknown" 1
      (FileRef.unk "unknown_1.jpg",
        ⟨[(FileRef.unk "unknown_1.jpg", 0)], ⟨[0], ["Unknown"], ["unknown_1.jpg"]⟩⟩)
      (by rfl)).2.2 (by decide)
  · exact index_store_consistency.2.2.2.2.2 exOne (frInit exOne []) (Op.saveOp 0 "Bob" 2)
      (fun f b c hmem => nomatch hmem)

end FacialRec
